import Mathlib

/-
Shallow embedding of `src/run_reminders.py` (EmailReminderSystem).

Pure values model the Python data: events and contacts are records of the
CSV row fields, the send ledger is an insertion-ordered association list
mirroring a Python dict, and the JSON send-log file is modelled at the
JSON-value level (the text serialisation performed by the `json` library is
outside the embedding).  External effects are explicit parameters: the
delivery channel `send_email` becomes a boolean-valued oracle, the clock
becomes explicit `today` / `now` arguments, file existence becomes an
`Option` argument.  Exceptions that propagate out of `run` (a missing
template file makes `create_email_message` return `None`, so the tuple
unpacking in `run` raises) are modelled by an aborted flag.
-/

set_option autoImplicit false

/-- Lowercase an ASCII letter, mirroring `str.lower()` on the ASCII range
used by the event-kind comparison in the source. -/
def toLowerChar (c : Char) : Char :=
  if 65 ≤ c.toNat ∧ c.toNat ≤ 90 then Char.ofNat (c.toNat + 32) else c

/-- Python `s.lower()` restricted to the ASCII case mapping. -/
def lowerStr (s : String) : String :=
  ⟨s.data.map toLowerChar⟩

/-- Decimal digit test, as in the `\d` atoms of the `strptime` regex. -/
def isDigitC (c : Char) : Bool :=
  48 ≤ c.toNat && c.toNat ≤ 57

/-- Numeric value of a decimal digit character. -/
def digitVal (c : Char) : Nat :=
  c.toNat - 48

/-- Calendar date, the value of `datetime.date(year, month, day)`. -/
structure Date where
  year : Nat
  month : Nat
  day : Nat
deriving Repr, DecidableEq

/-- Gregorian leap-year rule used by `datetime`. -/
def isLeap (y : Nat) : Bool :=
  y % 4 = 0 && (y % 100 ≠ 0 || y % 400 = 0)

/-- Number of days in a month, as validated by the `datetime` constructor. -/
def daysInMonth (y m : Nat) : Nat :=
  if m = 2 then (if isLeap y then 29 else 28)
  else if m = 4 || m = 6 || m = 9 || m = 11 then 30
  else 31

/-- The value of `today + timedelta(days=1)` for a valid date. -/
def addOneDay (d : Date) : Date :=
  if d.day + 1 ≤ daysInMonth d.year d.month then ⟨d.year, d.month, d.day + 1⟩
  else if d.month + 1 ≤ 12 then ⟨d.year, d.month + 1, 1⟩
  else ⟨d.year + 1, 1, 1⟩

/-- The `%Y` atom of CPython `_strptime`: exactly four decimal digits. -/
def matchYear : List Char → Option (Nat × List Char)
  | a :: b :: c :: d :: rest =>
    if isDigitC a && isDigitC b && isDigitC c && isDigitC d then
      some (1000 * digitVal a + 100 * digitVal b + 10 * digitVal c + digitVal d, rest)
    else none
  | _ => none

/-- The `%m` atom of CPython `_strptime` (regex `1[0-2]|0[1-9]|[1-9]`),
matched greedily; because the next pattern character is a literal dash,
regex backtracking cannot change the outcome. -/
def matchMonth : List Char → Option (Nat × List Char)
  | c1 :: c2 :: rest =>
    if c1 = '1' && ('0' ≤ c2 && c2 ≤ '2') then some (10 + digitVal c2, rest)
    else if c1 = '0' && ('1' ≤ c2 && c2 ≤ '9') then some (digitVal c2, rest)
    else if '1' ≤ c1 && c1 ≤ '9' then some (digitVal c1, c2 :: rest)
    else none
  | [c1] => if '1' ≤ c1 && c1 ≤ '9' then some (digitVal c1, []) else none
  | [] => none

/-- The `%d` atom of CPython `_strptime` (regex `3[01]|[12]\d|0[1-9]|[1-9]`),
matched greedily; the pattern ends after `%d`, and the leftover-input check
below rejects exactly the inputs on which backtracking would also fail. -/
def matchDay : List Char → Option (Nat × List Char)
  | c1 :: c2 :: rest =>
    if c1 = '3' && (c2 = '0' || c2 = '1') then some (30 + digitVal c2, rest)
    else if (c1 = '1' || c1 = '2') && isDigitC c2 then
      some (10 * digitVal c1 + digitVal c2, rest)
    else if c1 = '0' && ('1' ≤ c2 && c2 ≤ '9') then some (digitVal c2, rest)
    else if '1' ≤ c1 && c1 ≤ '9' then some (digitVal c1, c2 :: rest)
    else none
  | [c1] => if '1' ≤ c1 && c1 ≤ '9' then some (digitVal c1, []) else none
  | [] => none

/-- `datetime.strptime(s, "%Y-%m-%d").date()`: `none` models the
`ValueError` raised on a failed parse.  The trailing checks model the
"unconverted data remains" error and the range validation performed by the
`datetime` constructor. -/
def parseDate (s : String) : Option Date :=
  match matchYear s.data with
  | none => none
  | some (y, r1) =>
    match r1 with
    | '-' :: r2 =>
      match matchMonth r2 with
      | none => none
      | some (m, r3) =>
        match r3 with
        | '-' :: r4 =>
          match matchDay r4 with
          | none => none
          | some (d, r5) =>
            if r5 = [] ∧ 1 ≤ y ∧ d ≤ daysInMonth y m then some ⟨y, m, d⟩ else none
        | _ => none
    | _ => none

/-- One schedule row, as read by `read_schedule`. -/
structure Event where
  event_type : String
  date : String
  time : String
  location : String
  notes : String
deriving Repr, DecidableEq

/-- One contacts row, as read by `read_contacts`. -/
structure Contact where
  parent_name : String
  email : String
deriving Repr, DecidableEq

/-- An element of the `events_to_remind` list built by
`get_events_needing_reminders`: the original event dict spread together
with the added `reminder_type` and `send_date` keys. -/
structure ReminderTask where
  event : Event
  reminder_type : String
  send_date : Date
deriving Repr, DecidableEq

/-- The decision `get_events_needing_reminders` makes for a single event:
parse the date, then test the practice-tomorrow rule and the game-today
rule in order. -/
def selectEvent (today : Date) (e : Event) : Option ReminderTask :=
  match parseDate e.date with
  | none => none
  | some d =>
    if lowerStr e.event_type = "practice" ∧ d = addOneDay today then
      some ⟨e, "practice_reminder", today⟩
    else if lowerStr e.event_type = "game" ∧ d = today then
      some ⟨e, "game_reminder", today⟩
    else none

/-- Loop body of `get_events_needing_reminders`: the accumulator carries
the `events_to_remind` list and the warning messages logged so far.  A date
that fails to parse appends a warning; a matching event appends a task; any
other event leaves the accumulator unchanged. -/
def remindersStep (today : Date) (acc : List ReminderTask × List String) (e : Event) :
    List ReminderTask × List String :=
  match parseDate e.date with
  | none => (acc.1, acc.2 ++ ["Invalid date format in event: " ++ e.date])
  | some d =>
    if lowerStr e.event_type = "practice" ∧ d = addOneDay today then
      (acc.1 ++ [⟨e, "practice_reminder", today⟩], acc.2)
    else if lowerStr e.event_type = "game" ∧ d = today then
      (acc.1 ++ [⟨e, "game_reminder", today⟩], acc.2)
    else acc

/-- `get_events_needing_reminders` together with the warnings it logs. -/
def get_events_needing_reminders_log (events : List Event) (today : Date) :
    List ReminderTask × List String :=
  events.foldl (remindersStep today) ([], [])

/-- Return value of `get_events_needing_reminders` (the current date is an
explicit parameter in place of `datetime.now().date()`). -/
def get_events_needing_reminders (events : List Event) (today : Date) : List ReminderTask :=
  (get_events_needing_reminders_log events today).1

/-- One value of the `email_log` dict: the record stored by
`mark_as_sent`. -/
structure LedgerEntry where
  sent_date : String
  event_date : String
  event_type : String
  recipient : String
deriving Repr, DecidableEq

/-- The in-memory `email_log` dict: an insertion-ordered association list,
mirroring Python dict semantics. -/
abbrev Ledger := List (String × LedgerEntry)

/-- Key membership in the ledger (`log_key in self.email_log`). -/
def keyMem (l : Ledger) (k : String) : Bool :=
  l.any (fun p => p.1 = k)

/-- Python dict assignment `d[k] = v`: an existing key is overwritten in
place, a fresh key is appended at the end. -/
def dictInsert (l : Ledger) (k : String) (v : LedgerEntry) : Ledger :=
  if keyMem l k then l.map (fun p => if p.1 = k then (k, v) else p) else l ++ [(k, v)]

/-- The f-string key used by `has_been_sent` and `mark_as_sent`. -/
def logKey (e : Event) (contact_email : String) : String :=
  e.date ++ "_" ++ e.event_type ++ "_" ++ contact_email

/-- `has_been_sent(event, contact_email)`. -/
def has_been_sent (log : Ledger) (e : Event) (contact_email : String) : Bool :=
  keyMem log (logKey e contact_email)

/-- The entry value written by `mark_as_sent`; `now` stands for
`datetime.now().isoformat()`. -/
def mkEntry (e : Event) (contact_email now : String) : LedgerEntry :=
  ⟨now, e.date, e.event_type, contact_email⟩

/-- `mark_as_sent(event, contact_email)` acting on the ledger. -/
def mark_as_sent (log : Ledger) (e : Event) (contact_email now : String) : Ledger :=
  dictInsert log (logKey e contact_email) (mkEntry e contact_email now)

/-- JSON values, as far as the send-log file uses them. -/
inductive Json where
  | str : String → Json
  | obj : List (String × Json) → Json

/-- JSON encoding of one ledger entry, as `json.dump` serialises the dict
written by `mark_as_sent`. -/
def encodeEntry (e : LedgerEntry) : Json :=
  Json.obj [("sent_date", Json.str e.sent_date), ("event_date", Json.str e.event_date),
            ("event_type", Json.str e.event_type), ("recipient", Json.str e.recipient)]

/-- Decoding of one ledger entry from the JSON value `json.load` returns. -/
def decodeEntry : Json → Option LedgerEntry
  | Json.obj [("sent_date", Json.str a), ("event_date", Json.str b),
              ("event_type", Json.str c), ("recipient", Json.str d)] => some ⟨a, b, c, d⟩
  | _ => none

/-- Decode every key-value pair of the top-level JSON object. -/
def decodeEntries : List (String × Json) → Option Ledger
  | [] => some []
  | (k, v) :: rest =>
    match decodeEntry v, decodeEntries rest with
    | some e, some l => some ((k, e) :: l)
    | _, _ => none

/-- Decode the whole send-log document. -/
def decodeLedger : Json → Option Ledger
  | Json.obj kvs => decodeEntries kvs
  | _ => none

/-- `_save_email_log`: the JSON value written to `logs/sent_emails.json`. -/
def save_email_log (log : Ledger) : Json :=
  Json.obj (log.map (fun p => (p.1, encodeEntry p.2)))

/-- `_load_email_log`: a missing file yields the empty dict, an existing
file is parsed; `none` models a `json.load` failure propagating. -/
def load_email_log (file : Option Json) : Option Ledger :=
  match file with
  | none => some []
  | some j => decodeLedger j

/-- One template of `email_templates.json`. -/
structure Template where
  subject : String
  body : String
deriving Repr, DecidableEq

/-- The template document with its two top-level keys. -/
structure Templates where
  practice_reminder : Template
  game_reminder : Template
deriving Repr, DecidableEq

/-- Whether `l` begins with `pat` (the anchored-match test of
`str.replace`). -/
def startsWithL : List Char → List Char → Bool
  | _, [] => true
  | [], _ :: _ => false
  | c :: cs, p :: ps => c = p && startsWithL cs ps

/-- Whether `pat` occurs as a contiguous substring of `s`. -/
def containsSub : List Char → List Char → Bool
  | [], pat => pat.isEmpty
  | c :: cs, pat => startsWithL (c :: cs) pat || containsSub cs pat

/-- Python `str.replace` on character lists: leftmost non-overlapping
matches, scanning resumes after the replacement text.  The fuel argument
only serves structural recursion; with fuel at least the input length the
value is the untruncated scan (every step consumes at least one input
character because the patterns used in the source are nonempty). -/
def replaceFuel (pat rep : List Char) : Nat → List Char → List Char
  | 0, s => s
  | _ + 1, [] => []
  | n + 1, c :: cs =>
    if pat ≠ [] ∧ startsWithL (c :: cs) pat then
      rep ++ replaceFuel pat rep n (List.drop pat.length (c :: cs))
    else
      c :: replaceFuel pat rep n cs

/-- `s.replace(pat, rep)` on character lists, with canonical fuel. -/
def pyReplaceL (s pat rep : List Char) : List Char :=
  replaceFuel pat rep s.length s

/-- `s.replace(pat, rep)` on strings. -/
def pyReplace (s pat rep : String) : String :=
  ⟨pyReplaceL s.data pat.data rep.data⟩

/-- Full weekday names indexed from Sunday, for `strftime("%A")`. -/
def weekdayNameFromSunday : Nat → String
  | 0 => "Sunday"
  | 1 => "Monday"
  | 2 => "Tuesday"
  | 3 => "Wednesday"
  | 4 => "Thursday"
  | 5 => "Friday"
  | _ => "Saturday"

/-- Full month names for `strftime("%B")`. -/
def monthName : Nat → String
  | 1 => "January"
  | 2 => "February"
  | 3 => "March"
  | 4 => "April"
  | 5 => "May"
  | 6 => "June"
  | 7 => "July"
  | 8 => "August"
  | 9 => "September"
  | 10 => "October"
  | 11 => "November"
  | _ => "December"

/-- Day of week by Sakamoto's method, 0 = Sunday. -/
def dayOfWeekSunday (y m d : Nat) : Nat :=
  let t := [0, 3, 2, 5, 0, 3, 5, 1, 4, 6, 2, 4]
  let y' := if m < 3 then y - 1 else y
  (y' + y' / 4 - y' / 100 + y' / 400 + t.getD (m - 1) 0 + d) % 7

/-- Zero-pad to two digits, for `strftime("%d")`. -/
def pad2 (n : Nat) : String :=
  if n < 10 then "0" ++ toString n else toString n

/-- Zero-pad to four digits, for `strftime("%Y")`. -/
def pad4 (n : Nat) : String :=
  if n < 10 then "000" ++ toString n
  else if n < 100 then "00" ++ toString n
  else if n < 1000 then "0" ++ toString n
  else toString n

/-- `event_date.strftime("%A, %B %d, %Y")`. -/
def strftimeLong (d : Date) : String :=
  weekdayNameFromSunday (dayOfWeekSunday d.year d.month d.day) ++ ", " ++
    monthName d.month ++ " " ++ pad2 d.day ++ ", " ++ pad4 d.year

/-- The body of `create_email_message` after the five unconditional
placeholder substitutions, before the notes handling. -/
def preNotes (template : Template) (coach : String) (e : Event) (contact : Contact)
    (formatted_date : String) : String :=
  let b := pyReplace template.body "[PARENT_NAME]" contact.parent_name
  let b := pyReplace b "[DATE]" formatted_date
  let b := pyReplace b "[TIME]" e.time
  let b := pyReplace b "[LOCATION]" e.location
  pyReplace b "[COACH_NAME]" coach

/-- The rendered body including the conditional notes block
(`if event["notes"]: ... else: ...`). -/
def renderBody (template : Template) (coach : String) (e : Event) (contact : Contact)
    (formatted_date : String) : String :=
  if e.notes ≠ "" then
    pyReplace (preNotes template coach e contact formatted_date) "[NOTES]"
      ("\nAdditional Info: " ++ e.notes)
  else pyReplace (preNotes template coach e contact formatted_date) "[NOTES]" ""

/-- `create_email_message(event, contact)`.  The first argument models the
template file: `none` (file missing) makes the function return `None`.  A
date that fails to re-parse is also `none`: in the source that raises
`ValueError`, and either outcome aborts `run` at the call site. -/
def create_email_message (tmpl : Option Templates) (coach : String) (task : ReminderTask)
    (contact : Contact) : Option (String × String) :=
  match tmpl with
  | none => none
  | some ts =>
    match parseDate task.event.date with
    | none => none
    | some d =>
      some (pyReplace (if task.reminder_type = "practice_reminder" then ts.practice_reminder
              else ts.game_reminder).subject "[TIME]" task.event.time,
            renderBody (if task.reminder_type = "practice_reminder" then ts.practice_reminder
              else ts.game_reminder) coach task.event contact (strftimeLong d))

/-- Mutable state of the send loop in `run`: the two counters, the
in-memory ledger, and traces of the effects the loop performs (`attempts`
records every `send_email` call, `failures` the calls that returned false
and were logged as errors, `sends` the calls that returned true). -/
structure RunStats where
  sent : Nat
  skipped : Nat
  log : Ledger
  attempts : List (Event × Contact)
  failures : List (Event × Contact)
  sends : List (Event × Contact)
deriving Repr, DecidableEq

/-- Inner loop of `run` over the contacts for one task.  The boolean is
true when the loop aborted: `create_email_message` returned `None` and the
tuple unpacking raised, or its date re-parse raised.  `deliver` is the
delivery channel: the value `send_email` returns for the pair. -/
def processContacts (tmpl : Option Templates) (coach : String)
    (deliver : Event → Contact → Bool) (now : String) (task : ReminderTask) :
    List Contact → RunStats → RunStats × Bool
  | [], st => (st, false)
  | c :: cs, st =>
    if has_been_sent st.log task.event c.email then
      processContacts tmpl coach deliver now task cs { st with skipped := st.skipped + 1 }
    else if (create_email_message tmpl coach task c).isNone then
      (st, true)
    else if deliver task.event c then
      processContacts tmpl coach deliver now task cs
        { st with
          sent := st.sent + 1
          log := mark_as_sent st.log task.event c.email now
          attempts := st.attempts ++ [(task.event, c)]
          sends := st.sends ++ [(task.event, c)] }
    else
      processContacts tmpl coach deliver now task cs
        { st with
          attempts := st.attempts ++ [(task.event, c)]
          failures := st.failures ++ [(task.event, c)] }

/-- Outer loop of `run` over the due tasks. -/
def processTasks (tmpl : Option Templates) (coach : String) (contacts : List Contact)
    (deliver : Event → Contact → Bool) (now : String) :
    List ReminderTask → RunStats → RunStats × Bool
  | [], st => (st, false)
  | t :: ts, st =>
    let r := processContacts tmpl coach deliver now t contacts st
    if r.2 then (r.1, true)
    else processTasks tmpl coach contacts deliver now ts r.1

/-- Result of `run`: final loop state, whether an exception escaped the
loop, and the content written by `_save_email_log` (`none` when the file
was not written, leaving the previously persisted store untouched). -/
structure RunResult where
  stats : RunStats
  aborted : Bool
  saved : Option Ledger
deriving Repr, DecidableEq

/-- Initial loop state for a run starting from the loaded ledger. -/
def initStats (log0 : Ledger) : RunStats :=
  ⟨0, 0, log0, [], [], []⟩

/-- `run()`: early return when the schedule is empty, the contacts are
empty, or no task is due; otherwise the send loop followed by
`_save_email_log` (reached only when no exception escaped the loop). -/
def run (tmpl : Option Templates) (coach : String) (events : List Event)
    (contacts : List Contact) (today : Date) (deliver : Event → Contact → Bool)
    (now : String) (log0 : Ledger) : RunResult :=
  if events.isEmpty then ⟨initStats log0, false, none⟩
  else if contacts.isEmpty then ⟨initStats log0, false, none⟩
  else if (get_events_needing_reminders events today).isEmpty then ⟨initStats log0, false, none⟩
  else if (processTasks tmpl coach contacts deliver now
      (get_events_needing_reminders events today) (initStats log0)).2 then
    ⟨(processTasks tmpl coach contacts deliver now
        (get_events_needing_reminders events today) (initStats log0)).1, true, none⟩
  else
    ⟨(processTasks tmpl coach contacts deliver now
        (get_events_needing_reminders events today) (initStats log0)).1, false,
      some (processTasks tmpl coach contacts deliver now
        (get_events_needing_reminders events today) (initStats log0)).1.log⟩

/-- The final summary line `run` logs:
`f"Summary: {total_sent} emails sent, {total_skipped} skipped"`. -/
def summaryLine (st : RunStats) : String :=
  "Summary: " ++ toString st.sent ++ " emails sent, " ++ toString st.skipped ++ " skipped"

/-- The `__main__` block: construct the system and call `run`, with every
exception caught, logged, and swallowed, after which the interpreter exits
with status 0.  The first component is the process exit status; the second
is the run result, `none` when `run` was never invoked because
`_load_config` raised `FileNotFoundError` (missing config file) or the
send-log file failed to parse during `__init__`. -/
def mainProcess (configExists : Bool) (store : Option Json) (tmpl : Option Templates)
    (coach : String) (events : List Event) (contacts : List Contact) (today : Date)
    (deliver : Event → Contact → Bool) (now : String) : Nat × Option RunResult :=
  if configExists then
    match load_email_log store with
    | none => (0, none)
    | some log0 => (0, some (run tmpl coach events contacts today deliver now log0))
  else (0, none)

/-- The ledger pair appended by a successful send of this run:
`mark_as_sent` on a key that was absent appends exactly this entry. -/
def sendEntry (now : String) (p : Event × Contact) : String × LedgerEntry :=
  (logKey p.1 p.2.email, mkEntry p.1 p.2.email now)

/-- Sample run date used in concrete instance checks. -/
def d0Sample : Date := ⟨2025, 6, 3⟩

/-- Sample game event on the run date. -/
def evGameSample : Event := ⟨"game", "2025-06-03", "12:00", "Field", ""⟩

/-- Sample game event carrying notes. -/
def evGameNotesSample : Event := ⟨"game", "2025-06-03", "12:00", "Field", "Bring cleats"⟩

/-- Sample practice event one day after the run date. -/
def evPracticeSample : Event := ⟨"Practice", "2025-06-04", "18:00", "Gym", ""⟩

/-- Sample contact. -/
def annSample : Contact := ⟨"Ann", "ann@example.com"⟩

/-- A second sample contact. -/
def bobSample : Contact := ⟨"Bob", "bob@example.com"⟩

/-- Sample template document. -/
def tmplSample : Templates :=
  ⟨⟨"Practice at [TIME]", "Hi [PARENT_NAME], practice at [LOCATION].[NOTES]"⟩,
   ⟨"Game at [TIME]", "Hi [PARENT_NAME], game at [LOCATION].[NOTES]"⟩⟩

/-- Sample due task derived from the sample game event. -/
def taskGameSample : ReminderTask := ⟨evGameSample, "game_reminder", d0Sample⟩

/-- Overwriting an existing key preserves membership of any key. -/
theorem keyMem_map_overwrite {l : Ledger} {k k' : String} {v : LedgerEntry}
    (h : keyMem l k = true) :
    keyMem (l.map (fun p => if p.1 = k' then (k', v) else p)) k = true := by
  simp only [keyMem, List.any_eq_true, decide_eq_true_eq] at h ⊢
  obtain ⟨p, hp, hpk⟩ := h
  refine ⟨if p.1 = k' then (k', v) else p, List.mem_map.mpr ⟨p, hp, rfl⟩, ?_⟩
  by_cases hq : p.1 = k'
  · simp only [if_pos hq]
    exact hq.symm.trans hpk
  · simp only [if_neg hq]
    exact hpk

/-- Dict assignment never removes a key. -/
theorem keyMem_dictInsert_mono {l : Ledger} {k k' : String} {v : LedgerEntry}
    (h : keyMem l k = true) : keyMem (dictInsert l k' v) k = true := by
  unfold dictInsert
  split
  · exact keyMem_map_overwrite h
  · simp only [keyMem, List.any_append, Bool.or_eq_true]
    exact Or.inl h

/-- After a dict assignment the assigned key is present. -/
theorem keyMem_dictInsert_self {l : Ledger} {k : String} {v : LedgerEntry} :
    keyMem (dictInsert l k v) k = true := by
  unfold dictInsert
  split
  · rename_i hmem
    simp only [keyMem, List.any_eq_true, decide_eq_true_eq] at hmem ⊢
    obtain ⟨p, hp, hpk⟩ := hmem
    exact ⟨(k, v), List.mem_map.mpr ⟨p, hp, by simp [hpk]⟩, rfl⟩
  · simp [keyMem]

/-- Assigning a key that is absent appends the pair at the end. -/
theorem mark_fresh {log : Ledger} {e : Event} {em now : String}
    (h : keyMem log (logKey e em) = false) :
    mark_as_sent log e em now = log ++ [(logKey e em, mkEntry e em now)] := by
  unfold mark_as_sent dictInsert
  simp [h]

/-- Decoding inverts encoding for one entry. -/
theorem decodeEntry_encodeEntry (e : LedgerEntry) : decodeEntry (encodeEntry e) = some e := by
  cases e
  rfl

/-- Decoding inverts encoding for the entry list. -/
theorem decodeEntries_map (log : Ledger) :
    decodeEntries (log.map (fun p => (p.1, encodeEntry p.2))) = some log := by
  induction log with
  | nil => rfl
  | cons p rest ih =>
    obtain ⟨k, v⟩ := p
    simp only [List.map_cons, decodeEntries, decodeEntry_encodeEntry, ih]

/-- C8: persisting the in-memory ledger with `_save_email_log` and loading
it back with `_load_email_log` yields exactly the same entries (same keys,
same fields, even the same order) as the ledger before the persist. -/
theorem C8_ledger_roundtrip (log : Ledger) :
    load_email_log (some (save_email_log log)) = some log := by
  unfold load_email_log save_email_log decodeLedger
  exact decodeEntries_map log

/-- C5 counterexample: calling `mark_as_sent` a second time for the same
key (same event date, event type and recipient) does not fail with any
error; it returns normally and silently overwrites the stored entry, whose
`sent_date` is now the second timestamp and which remains the only entry
for that key. -/
theorem C5_counterexample :
    mark_as_sent (mark_as_sent [] evGameSample "ann@example.com" "t1")
        evGameSample "ann@example.com" "t2"
      = [("2025-06-03_game_ann@example.com", ⟨"t2", "2025-06-03", "game", "ann@example.com"⟩)] := by
  decide

/-- C5 (amended): a second `mark_as_sent` for the same key succeeds and
silently overwrites the existing ledger entry in place, replacing its
fields with the values of the second call; no error is raised (the
operation is total) and no duplicate entry is created. -/
theorem C5_duplicate_overwrites (log : Ledger) (e : Event) (em t1 t2 : String) :
    mark_as_sent (mark_as_sent log e em t1) e em t2
      = (mark_as_sent log e em t1).map
          (fun p => if p.1 = logKey e em then (logKey e em, mkEntry e em t2) else p) := by
  have h : keyMem (mark_as_sent log e em t1) (logKey e em) = true := keyMem_dictInsert_self
  show dictInsert (mark_as_sent log e em t1) (logKey e em) (mkEntry e em t2) = _
  unfold dictInsert
  rw [if_pos h]

/-- C6 counterexample: with the configuration file missing, the process
still exits with status 0 (the `__main__` handler catches the
`FileNotFoundError` and only logs it), contradicting the claimed non-zero
exit status; `run` is never invoked. -/
theorem C6_counterexample :
    mainProcess false none (some tmplSample) "Coach" [evGameSample] [annSample] d0Sample
        (fun _ _ => true) "now"
      = (0, none) := rfl

/-- C6 (amended): the process exit status is 0 in every case — normal
completion regardless of per-recipient failures, and also a missing
configuration file, whose exception the top-level handler swallows; a
missing configuration file does abort before any event or contact
processing, in that `run` is never invoked. -/
theorem C6_exit_status (configExists : Bool) (store : Option Json) (tmpl : Option Templates)
    (coach : String) (events : List Event) (contacts : List Contact) (today : Date)
    (deliver : Event → Contact → Bool) (now : String) :
    (mainProcess configExists store tmpl coach events contacts today deliver now).1 = 0
    ∧ (configExists = false →
        (mainProcess configExists store tmpl coach events contacts today deliver now).2 = none) := by
  constructor
  · unfold mainProcess
    split
    · split <;> rfl
    · rfl
  · intro h
    subst h
    rfl

/-- Instance check for the amended C6 at a concrete input. -/
theorem C6_exit_status_witness :
    (mainProcess false none none "C" [] [] d0Sample (fun _ _ => false) "n").1 = 0
    ∧ (mainProcess false none none "C" [] [] d0Sample (fun _ _ => false) "n").2 = none :=
  ⟨(C6_exit_status false none none "C" [] [] d0Sample (fun _ _ => false) "n").1,
   (C6_exit_status false none none "C" [] [] d0Sample (fun _ _ => false) "n").2 rfl⟩

/-- C4 counterexample: an event whose kind is neither practice nor game
(here "Meeting", with a perfectly valid date) is skipped, but no warning
is logged for it — the selector returns an empty warning list, while the
claim requires a warning for such records. -/
theorem C4_counterexample :
    get_events_needing_reminders_log [⟨"Meeting", "2025-06-03", "10:00", "Gym", ""⟩] d0Sample
      = ([], []) := by
  decide

/-- C4 (amended): per-record error handling in the selector: a record
whose date fails to parse is skipped with a warning logged for it; a
record with an unrecognized kind is skipped silently, with no warning;
in both cases processing continues with the remaining records (the loop
step is total, so such records never abort the run). -/
theorem C4_per_record (today : Date) (acc : List ReminderTask × List String) (e : Event)
    (es : List Event) :
    (parseDate e.date = none →
      remindersStep today acc e
        = (acc.1, acc.2 ++ ["Invalid date format in event: " ++ e.date]))
    ∧ (∀ d : Date, parseDate e.date = some d → lowerStr e.event_type ≠ "practice" →
        lowerStr e.event_type ≠ "game" → remindersStep today acc e = acc)
    ∧ List.foldl (remindersStep today) acc (e :: es)
        = List.foldl (remindersStep today) (remindersStep today acc e) es := by
  refine ⟨?_, ?_, rfl⟩
  · intro h
    unfold remindersStep
    rw [h]
  · intro d hd hp hg
    have h1 : ¬(lowerStr e.event_type = "practice" ∧ d = addOneDay today) := fun hc => hp hc.1
    have h2 : ¬(lowerStr e.event_type = "game" ∧ d = today) := fun hc => hg hc.1
    unfold remindersStep
    split
    · rename_i heq
      rw [heq] at hd
      cases hd
    · rename_i d' heq
      rw [heq] at hd
      injection hd with hd
      subst hd
      rw [if_neg h1, if_neg h2]

/-- Instance check for the amended C4: a bad date yields a warning and no
task; an unknown kind yields neither. -/
theorem C4_per_record_witness :
    remindersStep d0Sample ([], []) ⟨"Practice", "2025-13-40", "9:00", "Gym", ""⟩
      = ([], ["Invalid date format in event: 2025-13-40"])
    ∧ remindersStep d0Sample ([], []) ⟨"Meeting", "2025-06-03", "10:00", "Gym", ""⟩
      = ([], []) :=
  ⟨(C4_per_record d0Sample ([], []) ⟨"Practice", "2025-13-40", "9:00", "Gym", ""⟩ []).1
      (by decide),
   (C4_per_record d0Sample ([], []) ⟨"Meeting", "2025-06-03", "10:00", "Gym", ""⟩ []).2.1
      ⟨2025, 6, 3⟩ (by decide) (by decide) (by decide)⟩

/-- The loop step appends the per-event selection to the task list and the
per-event warning to the warning list. -/
theorem remindersStep_eq (today : Date) (acc : List ReminderTask × List String) (e : Event) :
    remindersStep today acc e
      = (acc.1 ++ (selectEvent today e).toList,
         acc.2 ++ (match parseDate e.date with
                   | none => ["Invalid date format in event: " ++ e.date]
                   | some _ => [])) := by
  unfold remindersStep selectEvent
  cases h : parseDate e.date with
  | none => simp
  | some d =>
    by_cases h1 : lowerStr e.event_type = "practice" ∧ d = addOneDay today
    · simp [if_pos h1]
    · by_cases h2 : lowerStr e.event_type = "game" ∧ d = today
      · simp [if_neg h1, if_pos h2]
      · simp [if_neg h1, if_neg h2]

/-- First component of the selector fold in closed form. -/
theorem foldl_reminders_fst (today : Date) (es : List Event) :
    ∀ acc : List ReminderTask × List String,
      (List.foldl (remindersStep today) acc es).1 = acc.1 ++ es.filterMap (selectEvent today) := by
  induction es with
  | nil => intro acc; simp
  | cons e es ih =>
    intro acc
    rw [List.foldl_cons, ih, remindersStep_eq]
    cases h : selectEvent today e with
    | none => simp [List.filterMap_cons_none, h]
    | some t => simp [List.filterMap_cons_some, h]

/-- `get_events_needing_reminders` in closed form: the per-event selection
mapped over the input order. -/
theorem reminders_eq_filterMap (events : List Event) (today : Date) :
    get_events_needing_reminders events today = events.filterMap (selectEvent today) := by
  unfold get_events_needing_reminders get_events_needing_reminders_log
  rw [foldl_reminders_fst]
  rfl

/-- A selected task wraps the event it was selected from. -/
theorem selectEvent_event {today : Date} {e : Event} {t : ReminderTask}
    (h : selectEvent today e = some t) : t.event = e := by
  unfold selectEvent at h
  split at h
  · cases h
  · split at h
    · cases h
      rfl
    · split at h
      · cases h
        rfl
      · cases h

/-- The date of a selected task parses. -/
theorem selectEvent_parses {today : Date} {e : Event} {t : ReminderTask}
    (h : selectEvent today e = some t) : ∃ d, parseDate t.event.date = some d := by
  have he := selectEvent_event h
  unfold selectEvent at h
  split at h
  · cases h
  · rename_i d heq
    exact ⟨d, by rw [he, heq]⟩

/-- Every selected task has a parseable date. -/
theorem mem_reminders_parse {events : List Event} {today : Date} {t : ReminderTask}
    (ht : t ∈ get_events_needing_reminders events today) :
    ∃ d, parseDate t.event.date = some d := by
  rw [reminders_eq_filterMap] at ht
  obtain ⟨e, _, hsel⟩ := List.mem_filterMap.mp ht
  exact selectEvent_parses hsel

/-- The events underlying the selector output form a sublist of the input,
in the same relative order. -/
theorem filterMap_select_sublist (today : Date) (events : List Event) :
    ((events.filterMap (selectEvent today)).map (fun t => t.event)).Sublist events := by
  induction events with
  | nil => simp
  | cons e es ih =>
    cases h : selectEvent today e with
    | none =>
      rw [List.filterMap_cons_none h]
      exact ih.cons e
    | some t =>
      rw [List.filterMap_cons_some h, List.map_cons, selectEvent_event h]
      exact ih.cons₂ e

/-- C2: selector correctness. The output is exactly the per-event
selection in input order (so each event yields at most one task, and order
is preserved: the selected events form a sublist of the input); an event
of kind practice (case-insensitively) dated tomorrow yields exactly the
practice task evaluated at today; an event of kind game dated today yields
exactly the game task; an unparsable date or any other kind/date
combination yields nothing. -/
theorem C2_selector_correct (events : List Event) (today : Date) :
    get_events_needing_reminders events today = events.filterMap (selectEvent today)
    ∧ (∀ e : Event, lowerStr e.event_type = "practice" →
        parseDate e.date = some (addOneDay today) →
        selectEvent today e = some ⟨e, "practice_reminder", today⟩)
    ∧ (∀ e : Event, lowerStr e.event_type = "game" → parseDate e.date = some today →
        selectEvent today e = some ⟨e, "game_reminder", today⟩)
    ∧ (∀ e : Event, parseDate e.date = none → selectEvent today e = none)
    ∧ (∀ (e : Event) (d : Date), parseDate e.date = some d →
        ¬(lowerStr e.event_type = "practice" ∧ d = addOneDay today) →
        ¬(lowerStr e.event_type = "game" ∧ d = today) →
        selectEvent today e = none)
    ∧ ((get_events_needing_reminders events today).map (fun t => t.event)).Sublist events := by
  refine ⟨reminders_eq_filterMap events today, ?_, ?_, ?_, ?_, ?_⟩
  · intro e hp hd
    unfold selectEvent
    split
    · rename_i heq
      rw [heq] at hd
      cases hd
    · rename_i d' heq
      rw [heq] at hd
      injection hd with hd
      subst hd
      rw [if_pos ⟨hp, rfl⟩]
  · intro e hg hd
    unfold selectEvent
    split
    · rename_i heq
      rw [heq] at hd
      cases hd
    · rename_i d' heq
      rw [heq] at hd
      injection hd with hd
      subst hd
      rw [if_neg, if_pos ⟨hg, rfl⟩]
      intro hc
      rw [hg] at hc
      exact absurd hc.1 (by decide)
  · intro e h
    unfold selectEvent
    rw [h]
  · intro e d hd h1 h2
    unfold selectEvent
    split
    · rfl
    · rename_i d' heq
      rw [heq] at hd
      injection hd with hd
      subst hd
      rw [if_neg h1, if_neg h2]
  · rw [reminders_eq_filterMap]
    exact filterMap_select_sublist today events

/-- Instance check for C2: a next-day practice yields exactly its practice
task; an upper-case game today yields its game task. -/
theorem C2_selector_correct_witness :
    get_events_needing_reminders [evPracticeSample] d0Sample
      = [⟨evPracticeSample, "practice_reminder", d0Sample⟩]
    ∧ selectEvent d0Sample ⟨"GAME", "2025-06-03", "12:00", "Field", ""⟩
      = some ⟨⟨"GAME", "2025-06-03", "12:00", "Field", ""⟩, "game_reminder", d0Sample⟩ := by
  constructor
  · rw [(C2_selector_correct [evPracticeSample] d0Sample).1]
    decide
  · exact (C2_selector_correct [] d0Sample).2.2.1 ⟨"GAME", "2025-06-03", "12:00", "Field", ""⟩
      (by decide) (by decide)

/-- Loop step for an already-notified recipient: skip, bump the skip
counter, continue with the remaining recipients. -/
theorem processContacts_skip {tmpl : Option Templates} {coach : String}
    {deliver : Event → Contact → Bool} {now : String} {task : ReminderTask} {c : Contact}
    {cs : List Contact} {st : RunStats}
    (h : has_been_sent st.log task.event c.email = true) :
    processContacts tmpl coach deliver now task (c :: cs) st
      = processContacts tmpl coach deliver now task cs { st with skipped := st.skipped + 1 } := by
  simp only [processContacts]
  rw [if_pos h]

/-- Loop step for a failed delivery: the ledger and the counters are
untouched, the attempt and the failure are recorded with the recipient,
and the loop continues with the remaining recipients. -/
theorem processContacts_fail {tmpl : Option Templates} {coach : String}
    {deliver : Event → Contact → Bool} {now : String} {task : ReminderTask} {c : Contact}
    {cs : List Contact} {st : RunStats}
    (hsent : has_been_sent st.log task.event c.email = false)
    (hmsg : (create_email_message tmpl coach task c).isNone = false)
    (hfail : deliver task.event c = false) :
    processContacts tmpl coach deliver now task (c :: cs) st
      = processContacts tmpl coach deliver now task cs
          { st with attempts := st.attempts ++ [(task.event, c)],
                    failures := st.failures ++ [(task.event, c)] } := by
  simp only [processContacts]
  rw [if_neg (by simp [hsent]), if_neg (by simp [hmsg]), if_neg (by simp [hfail])]

/-- Loop step for a successful delivery: the pair is marked in the ledger,
the sent counter is bumped, the attempt and the send are recorded. -/
theorem processContacts_send {tmpl : Option Templates} {coach : String}
    {deliver : Event → Contact → Bool} {now : String} {task : ReminderTask} {c : Contact}
    {cs : List Contact} {st : RunStats}
    (hsent : has_been_sent st.log task.event c.email = false)
    (hmsg : (create_email_message tmpl coach task c).isNone = false)
    (hdel : deliver task.event c = true) :
    processContacts tmpl coach deliver now task (c :: cs) st
      = processContacts tmpl coach deliver now task cs
          { st with
            sent := st.sent + 1
            log := mark_as_sent st.log task.event c.email now
            attempts := st.attempts ++ [(task.event, c)]
            sends := st.sends ++ [(task.event, c)] } := by
  simp only [processContacts]
  rw [if_neg (by simp [hsent]), if_neg (by simp [hmsg]), if_pos hdel]

/-- The contacts loop never removes a ledger key. -/
theorem processContacts_keyMem {tmpl : Option Templates} {coach : String}
    {deliver : Event → Contact → Bool} {now : String} {task : ReminderTask} :
    ∀ (cs : List Contact) (st : RunStats) (k : String), keyMem st.log k = true →
      keyMem (processContacts tmpl coach deliver now task cs st).1.log k = true := by
  intro cs
  induction cs with
  | nil => intro st k h; exact h
  | cons c cs ih =>
    intro st k h
    simp only [processContacts]
    split
    · exact ih _ k h
    · split
      · exact h
      · split
        · exact ih _ k (keyMem_dictInsert_mono h)
        · exact ih _ k h

/-- The tasks loop never removes a ledger key. -/
theorem processTasks_keyMem {tmpl : Option Templates} {coach : String}
    {contacts : List Contact} {deliver : Event → Contact → Bool} {now : String} :
    ∀ (ts : List ReminderTask) (st : RunStats) (k : String), keyMem st.log k = true →
      keyMem (processTasks tmpl coach contacts deliver now ts st).1.log k = true := by
  intro ts
  induction ts with
  | nil => intro st k h; exact h
  | cons t ts ih =>
    intro st k h
    simp only [processTasks]
    split
    · exact processContacts_keyMem contacts st k h
    · exact ih _ k (processContacts_keyMem contacts st k h)

/-- The attempt trace only ever grows, by appending. -/
theorem processContacts_attempts_ext {tmpl : Option Templates} {coach : String}
    {deliver : Event → Contact → Bool} {now : String} {task : ReminderTask} :
    ∀ (cs : List Contact) (st : RunStats),
      ∃ ext, (processContacts tmpl coach deliver now task cs st).1.attempts
        = st.attempts ++ ext := by
  intro cs
  induction cs with
  | nil => intro st; exact ⟨[], by simp [processContacts]⟩
  | cons c cs ih =>
    intro st
    simp only [processContacts]
    split
    · exact ih _
    · split
      · exact ⟨[], by simp⟩
      · split
        · obtain ⟨ext, hext⟩ := ih { st with
            sent := st.sent + 1
            log := mark_as_sent st.log task.event c.email now
            attempts := st.attempts ++ [(task.event, c)]
            sends := st.sends ++ [(task.event, c)] }
          exact ⟨(task.event, c) :: ext, by simpa using hext⟩
        · obtain ⟨ext, hext⟩ := ih { st with
            attempts := st.attempts ++ [(task.event, c)]
            failures := st.failures ++ [(task.event, c)] }
          exact ⟨(task.event, c) :: ext, by simpa using hext⟩

/-- C3: delivery-failure atomicity.  When the channel reports failure for
a not-yet-notified pair, the loop step leaves the ledger untouched (only
the attempt and failure traces grow), continues with the remaining
recipients, the pair still does not satisfy `has_been_sent` afterwards,
and any later pass over the same pair with a ledger in which the pair is
still unsent performs a fresh delivery attempt for it. -/
theorem C3_failure_atomicity (tmpl : Option Templates) (coach : String)
    (deliver : Event → Contact → Bool) (now : String) (task : ReminderTask) (c : Contact)
    (cs : List Contact) (st : RunStats)
    (hsent : has_been_sent st.log task.event c.email = false)
    (hmsg : (create_email_message tmpl coach task c).isNone = false)
    (hfail : deliver task.event c = false) :
    processContacts tmpl coach deliver now task (c :: cs) st
      = processContacts tmpl coach deliver now task cs
          { st with attempts := st.attempts ++ [(task.event, c)],
                    failures := st.failures ++ [(task.event, c)] }
    ∧ has_been_sent ({ st with attempts := st.attempts ++ [(task.event, c)],
                               failures := st.failures ++ [(task.event, c)] }
          : RunStats).log task.event c.email
        = false
    ∧ ∀ (deliver2 : Event → Contact → Bool) (now2 : String) (st2 : RunStats),
        has_been_sent st2.log task.event c.email = false →
        ∃ rest, (processContacts tmpl coach deliver2 now2 task (c :: cs) st2).1.attempts
          = st2.attempts ++ (task.event, c) :: rest := by
  refine ⟨processContacts_fail hsent hmsg hfail, hsent, ?_⟩
  intro deliver2 now2 st2 hsent2
  by_cases hdel2 : deliver2 task.event c = true
  · rw [processContacts_send hsent2 hmsg hdel2]
    obtain ⟨ext, hext⟩ := processContacts_attempts_ext cs { st2 with
      sent := st2.sent + 1
      log := mark_as_sent st2.log task.event c.email now2
      attempts := st2.attempts ++ [(task.event, c)]
      sends := st2.sends ++ [(task.event, c)] }
    exact ⟨ext, by simpa using hext⟩
  · rw [processContacts_fail hsent2 hmsg (by simpa using hdel2)]
    obtain ⟨ext, hext⟩ := processContacts_attempts_ext cs { st2 with
      attempts := st2.attempts ++ [(task.event, c)]
      failures := st2.failures ++ [(task.event, c)] }
    exact ⟨ext, by simpa using hext⟩

/-- Instance check for C3 at a concrete failing delivery. -/
theorem C3_failure_atomicity_witness :
    processContacts (some tmplSample) "Coach" (fun _ _ => false) "T" taskGameSample
        [annSample] (initStats [])
      = processContacts (some tmplSample) "Coach" (fun _ _ => false) "T" taskGameSample []
          { initStats [] with attempts := [(taskGameSample.event, annSample)],
                              failures := [(taskGameSample.event, annSample)] }
    ∧ has_been_sent (initStats []).log taskGameSample.event annSample.email = false :=
  ⟨((C3_failure_atomicity (some tmplSample) "Coach" (fun _ _ => false) "T" taskGameSample
      annSample [] (initStats []) (by decide) (by decide) rfl).1),
   ((C3_failure_atomicity (some tmplSample) "Coach" (fun _ _ => false) "T" taskGameSample
      annSample [] (initStats []) (by decide) (by decide) rfl).2.1)⟩

/-- With the template file present and a parseable task date,
`create_email_message` returns a message. -/
theorem create_isNone_false {ts : Templates} {coach : String} {task : ReminderTask}
    {c : Contact} {d : Date} (hd : parseDate task.event.date = some d) :
    (create_email_message (some ts) coach task c).isNone = false := by
  unfold create_email_message
  rw [hd]
  rfl

/-- When every delivery succeeds and the task date parses, the contacts
loop never aborts and afterwards every contact of the list is marked in
the ledger for the task. -/
theorem processContacts_cover (ts : Templates) (coach : String)
    (deliver : Event → Contact → Bool) (now : String) (task : ReminderTask) {d : Date}
    (hd : parseDate task.event.date = some d)
    (hall : ∀ e c, deliver e c = true) :
    ∀ (cs : List Contact) (st : RunStats),
      (processContacts (some ts) coach deliver now task cs st).2 = false
      ∧ ∀ c ∈ cs, keyMem (processContacts (some ts) coach deliver now task cs st).1.log
          (logKey task.event c.email) = true := by
  intro cs
  induction cs with
  | nil => intro st; exact ⟨by simp [processContacts], by simp⟩
  | cons c cs ih =>
    intro st
    cases hs : has_been_sent st.log task.event c.email with
    | true =>
      rw [processContacts_skip hs]
      refine ⟨(ih _).1, ?_⟩
      intro c' hc'
      rcases List.mem_cons.mp hc' with rfl | hmem
      · exact processContacts_keyMem cs _ _ hs
      · exact (ih _).2 c' hmem
    | false =>
      rw [processContacts_send hs (create_isNone_false hd) (hall _ _)]
      refine ⟨(ih _).1, ?_⟩
      intro c' hc'
      rcases List.mem_cons.mp hc' with rfl | hmem
      · exact processContacts_keyMem cs _ _ keyMem_dictInsert_self
      · exact (ih _).2 c' hmem

/-- When every delivery succeeds and every task date parses, the tasks
loop never aborts and afterwards every due (task, contact) pair is marked
in the ledger. -/
theorem processTasks_cover (ts : Templates) (coach : String) (contacts : List Contact)
    (deliver : Event → Contact → Bool) (now : String)
    (hall : ∀ e c, deliver e c = true) :
    ∀ (tasks : List ReminderTask),
      (∀ t ∈ tasks, ∃ d, parseDate t.event.date = some d) →
      ∀ st : RunStats,
        (processTasks (some ts) coach contacts deliver now tasks st).2 = false
        ∧ ∀ t ∈ tasks, ∀ c ∈ contacts,
            keyMem (processTasks (some ts) coach contacts deliver now tasks st).1.log
              (logKey t.event c.email) = true := by
  intro tasks
  induction tasks with
  | nil => intro _ st; exact ⟨by simp [processTasks], by simp⟩
  | cons t tks ih =>
    intro hparse st
    obtain ⟨d, hd⟩ := hparse t (List.mem_cons_self t tks)
    obtain ⟨hab, hcov⟩ := processContacts_cover ts coach deliver now t hd hall contacts st
    have IH := ih (fun t' ht' => hparse t' (List.mem_cons_of_mem t ht'))
      (processContacts (some ts) coach deliver now t contacts st).1
    simp only [processTasks]
    rw [if_neg (by simp [hab])]
    refine ⟨IH.1, ?_⟩
    intro t' ht' c hc
    rcases List.mem_cons.mp ht' with rfl | hmem
    · exact processTasks_keyMem tks _ _ (hcov c hc)
    · exact IH.2 t' hmem c hc

/-- A contacts loop over recipients that are all already marked only bumps
the skip counter: no abort, no ledger change, no send, no attempt. -/
theorem processContacts_allskip (tmpl : Option Templates) (coach : String)
    (deliver : Event → Contact → Bool) (now : String) (task : ReminderTask) :
    ∀ (cs : List Contact) (st : RunStats),
      (∀ c ∈ cs, keyMem st.log (logKey task.event c.email) = true) →
      (processContacts tmpl coach deliver now task cs st).2 = false
      ∧ (processContacts tmpl coach deliver now task cs st).1.log = st.log
      ∧ (processContacts tmpl coach deliver now task cs st).1.sent = st.sent
      ∧ (processContacts tmpl coach deliver now task cs st).1.attempts = st.attempts := by
  intro cs
  induction cs with
  | nil =>
    intro st _
    refine ⟨?_, ?_, ?_, ?_⟩ <;> simp [processContacts]
  | cons c cs ih =>
    intro st h
    rw [processContacts_skip (h c (List.mem_cons_self c cs))]
    exact ih _ (fun c' hc' => h c' (List.mem_cons_of_mem c hc'))

/-- A tasks loop in which every due pair is already marked only skips. -/
theorem processTasks_allskip (tmpl : Option Templates) (coach : String)
    (contacts : List Contact) (deliver : Event → Contact → Bool) (now : String) :
    ∀ (tasks : List ReminderTask) (st : RunStats),
      (∀ t ∈ tasks, ∀ c ∈ contacts, keyMem st.log (logKey t.event c.email) = true) →
      (processTasks tmpl coach contacts deliver now tasks st).2 = false
      ∧ (processTasks tmpl coach contacts deliver now tasks st).1.log = st.log
      ∧ (processTasks tmpl coach contacts deliver now tasks st).1.sent = st.sent
      ∧ (processTasks tmpl coach contacts deliver now tasks st).1.attempts = st.attempts := by
  intro tasks
  induction tasks with
  | nil =>
    intro st _
    refine ⟨?_, ?_, ?_, ?_⟩ <;> simp [processTasks]
  | cons t tks ih =>
    intro st h
    obtain ⟨hab, hlog, hsent, hatt⟩ :=
      processContacts_allskip tmpl coach deliver now t contacts st
        (fun c hc => h t (List.mem_cons_self t tks) c hc)
    have h' : ∀ t' ∈ tks, ∀ c ∈ contacts,
        keyMem (processContacts tmpl coach deliver now t contacts st).1.log
          (logKey t'.event c.email) = true := by
      intro t' ht' c hc
      rw [hlog]
      exact h t' (List.mem_cons_of_mem t ht') c hc
    obtain ⟨a2, l2, s2, at2⟩ := ih (processContacts tmpl coach deliver now t contacts st).1 h'
    simp only [processTasks]
    rw [if_neg (by simp [hab])]
    exact ⟨a2, l2.trans hlog, s2.trans hsent, at2.trans hatt⟩

/-- C1: idempotence of a run.  After a first run in which every delivery
succeeds, every due (event, recipient) pair satisfies `has_been_sent` in
the resulting ledger, and a second run over the same events, contacts and
date, starting from that ledger, performs zero sends (its sent counter is
0 and it calls `send_email` on nobody) and adds zero new ledger entries
(its final ledger equals the first run's ledger). -/
theorem C1_idempotence (ts : Templates) (coach : String) (events : List Event)
    (contacts : List Contact) (today : Date) (deliver : Event → Contact → Bool)
    (now now2 : String) (log0 : Ledger)
    (hall : ∀ e c, deliver e c = true) :
    (run (some ts) coach events contacts today deliver now2
        (run (some ts) coach events contacts today deliver now log0).stats.log).stats.sent = 0
    ∧ (run (some ts) coach events contacts today deliver now2
        (run (some ts) coach events contacts today deliver now log0).stats.log).stats.attempts
        = []
    ∧ (run (some ts) coach events contacts today deliver now2
        (run (some ts) coach events contacts today deliver now log0).stats.log).stats.log
        = (run (some ts) coach events contacts today deliver now log0).stats.log
    ∧ ∀ t ∈ get_events_needing_reminders events today, ∀ c ∈ contacts,
        has_been_sent (run (some ts) coach events contacts today deliver now log0).stats.log
          t.event c.email = true := by
  by_cases he : events.isEmpty = true
  · have h1 : ∀ (n : String) (l : Ledger),
        run (some ts) coach events contacts today deliver n l = ⟨initStats l, false, none⟩ := by
      intro n l
      unfold run
      rw [if_pos he]
    have hnil : events = [] := by
      cases events with
      | nil => rfl
      | cons e es => simp [List.isEmpty] at he
    refine ⟨by rw [h1, h1]; rfl, by rw [h1, h1]; rfl, by rw [h1, h1]; rfl, ?_⟩
    intro t ht c hc
    subst hnil
    simp [get_events_needing_reminders, get_events_needing_reminders_log] at ht
  · by_cases hc : contacts.isEmpty = true
    · have h1 : ∀ (n : String) (l : Ledger),
          run (some ts) coach events contacts today deliver n l = ⟨initStats l, false, none⟩ := by
        intro n l
        unfold run
        rw [if_neg he, if_pos hc]
      have hnil : contacts = [] := by
        cases contacts with
        | nil => rfl
        | cons c cs => simp [List.isEmpty] at hc
      refine ⟨by rw [h1, h1]; rfl, by rw [h1, h1]; rfl, by rw [h1, h1]; rfl, ?_⟩
      intro t ht c hcm
      subst hnil
      simp at hcm
    · by_cases ht : (get_events_needing_reminders events today).isEmpty = true
      · have h1 : ∀ (n : String) (l : Ledger),
            run (some ts) coach events contacts today deliver n l
              = ⟨initStats l, false, none⟩ := by
          intro n l
          unfold run
          rw [if_neg he, if_neg hc, if_pos ht]
        have hnil : get_events_needing_reminders events today = [] := by
          cases hg : get_events_needing_reminders events today with
          | nil => rfl
          | cons t tks => rw [hg] at ht; simp [List.isEmpty] at ht
        refine ⟨by rw [h1, h1]; rfl, by rw [h1, h1]; rfl, by rw [h1, h1]; rfl, ?_⟩
        intro t htm c hcm
        rw [hnil] at htm
        simp at htm
      · have hparse : ∀ t ∈ get_events_needing_reminders events today,
            ∃ d, parseDate t.event.date = some d := fun t ht' => mem_reminders_parse ht'
        obtain ⟨hab, hcov⟩ :=
          processTasks_cover ts coach contacts deliver now hall
            (get_events_needing_reminders events today) hparse (initStats log0)
        have hr1 : run (some ts) coach events contacts today deliver now log0
            = ⟨(processTasks (some ts) coach contacts deliver now
                  (get_events_needing_reminders events today) (initStats log0)).1, false,
                some (processTasks (some ts) coach contacts deliver now
                  (get_events_needing_reminders events today) (initStats log0)).1.log⟩ := by
          unfold run
          rw [if_neg he, if_neg hc, if_neg ht, if_neg (by simp [hab])]
        have e1 : (run (some ts) coach events contacts today deliver now log0).stats.log
            = (processTasks (some ts) coach contacts deliver now
                (get_events_needing_reminders events today) (initStats log0)).1.log := by
          rw [hr1]
        obtain ⟨hab2, hlog2, hsent2, hatt2⟩ :=
          processTasks_allskip (some ts) coach contacts deliver now2
            (get_events_needing_reminders events today)
            (initStats (processTasks (some ts) coach contacts deliver now
              (get_events_needing_reminders events today) (initStats log0)).1.log)
            (fun t ht' c hc' => hcov t ht' c hc')
        have hr2 : run (some ts) coach events contacts today deliver now2
            (processTasks (some ts) coach contacts deliver now
              (get_events_needing_reminders events today) (initStats log0)).1.log
            = ⟨(processTasks (some ts) coach contacts deliver now2
                  (get_events_needing_reminders events today)
                  (initStats (processTasks (some ts) coach contacts deliver now
                    (get_events_needing_reminders events today) (initStats log0)).1.log)).1,
                false,
                some (processTasks (some ts) coach contacts deliver now2
                  (get_events_needing_reminders events today)
                  (initStats (processTasks (some ts) coach contacts deliver now
                    (get_events_needing_reminders events today) (initStats log0)).1.log)).1.log⟩
            := by
          unfold run
          rw [if_neg he, if_neg hc, if_neg ht, if_neg (by simp [hab2])]
        refine ⟨?_, ?_, ?_, ?_⟩
        · rw [e1, hr2]
          exact hsent2
        · rw [e1, hr2]
          exact hatt2
        · rw [e1, hr2]
          exact hlog2
        · intro t htm c hcm
          rw [e1]
          exact hcov t htm c hcm

/-- Instance check for C1 at a concrete schedule, contact and ledger. -/
theorem C1_idempotence_witness :
    (run (some tmplSample) "Coach" [evGameSample] [annSample] d0Sample (fun _ _ => true) "T2"
        (run (some tmplSample) "Coach" [evGameSample] [annSample] d0Sample (fun _ _ => true)
          "T1" []).stats.log).stats.sent = 0
    ∧ (run (some tmplSample) "Coach" [evGameSample] [annSample] d0Sample (fun _ _ => true) "T2"
        (run (some tmplSample) "Coach" [evGameSample] [annSample] d0Sample (fun _ _ => true)
          "T1" []).stats.log).stats.log
      = (run (some tmplSample) "Coach" [evGameSample] [annSample] d0Sample (fun _ _ => true)
          "T1" []).stats.log :=
  ⟨(C1_idempotence tmplSample "Coach" [evGameSample] [annSample] d0Sample (fun _ _ => true)
      "T1" "T2" [] (fun _ _ => rfl)).1,
   (C1_idempotence tmplSample "Coach" [evGameSample] [annSample] d0Sample (fun _ _ => true)
      "T1" "T2" [] (fun _ _ => rfl)).2.2.1⟩

/-- Frame invariant of the contacts loop: if the ledger so far is the base
ledger extended by exactly one appended entry per recorded successful
send, the loop preserves this shape, and the sent counter stays equal to
the number of recorded sends. -/
theorem processContacts_invar (tmpl : Option Templates) (coach : String)
    (deliver : Event → Contact → Bool) (now : String) (task : ReminderTask) :
    ∀ (cs : List Contact) (st : RunStats) (base : Ledger),
      st.log = base ++ st.sends.map (sendEntry now) →
      st.sent = st.sends.length →
      (processContacts tmpl coach deliver now task cs st).1.log
          = base ++ (processContacts tmpl coach deliver now task cs st).1.sends.map
              (sendEntry now)
      ∧ (processContacts tmpl coach deliver now task cs st).1.sent
          = (processContacts tmpl coach deliver now task cs st).1.sends.length := by
  intro cs
  induction cs with
  | nil =>
    intro st base h1 h2
    exact ⟨by simpa [processContacts] using h1, by simpa [processContacts] using h2⟩
  | cons c cs ih =>
    intro st base h1 h2
    cases hs : has_been_sent st.log task.event c.email with
    | true =>
      rw [processContacts_skip hs]
      exact ih _ base h1 h2
    | false =>
      cases hm : (create_email_message tmpl coach task c).isNone with
      | true =>
        simp only [processContacts]
        rw [if_neg (by simp [hs]), if_pos hm]
        exact ⟨h1, h2⟩
      | false =>
        cases hd : deliver task.event c with
        | true =>
          rw [processContacts_send hs hm hd]
          refine ih _ base ?_ ?_
          · show mark_as_sent st.log task.event c.email now
              = base ++ (st.sends ++ [(task.event, c)]).map (sendEntry now)
            have hfresh : keyMem st.log (logKey task.event c.email) = false := hs
            rw [mark_fresh hfresh, h1, List.map_append, List.append_assoc]
            rfl
          · show st.sent + 1 = (st.sends ++ [(task.event, c)]).length
            rw [List.length_append, h2]
            rfl
        | false =>
          rw [processContacts_fail hs hm hd]
          exact ih _ base h1 h2

/-- Frame invariant of the tasks loop. -/
theorem processTasks_invar (tmpl : Option Templates) (coach : String)
    (contacts : List Contact) (deliver : Event → Contact → Bool) (now : String) :
    ∀ (tasks : List ReminderTask) (st : RunStats) (base : Ledger),
      st.log = base ++ st.sends.map (sendEntry now) →
      st.sent = st.sends.length →
      (processTasks tmpl coach contacts deliver now tasks st).1.log
          = base ++ (processTasks tmpl coach contacts deliver now tasks st).1.sends.map
              (sendEntry now)
      ∧ (processTasks tmpl coach contacts deliver now tasks st).1.sent
          = (processTasks tmpl coach contacts deliver now tasks st).1.sends.length := by
  intro tasks
  induction tasks with
  | nil =>
    intro st base h1 h2
    exact ⟨by simpa [processTasks] using h1, by simpa [processTasks] using h2⟩
  | cons t tks ih =>
    intro st base h1 h2
    obtain ⟨g1, g2⟩ := processContacts_invar tmpl coach deliver now t contacts st base h1 h2
    simp only [processTasks]
    split
    · exact ⟨g1, g2⟩
    · exact ih _ base g1 g2

/-- C10: persist checkpoint and frame of `run`.  An empty schedule, an
empty contact list, or an empty due-task list makes `run` return early
with nothing written to the store; an aborted loop writes nothing (so
sends that succeeded before the abort are not persisted); and when the
loop completes, exactly one write happens, whose content is the final
in-memory ledger: the ledger loaded at startup extended by exactly one
appended entry per successful send of this run (the sent counter equals
the number of those sends). -/
theorem C10_persist_frame (tmpl : Option Templates) (coach : String) (events : List Event)
    (contacts : List Contact) (today : Date) (deliver : Event → Contact → Bool)
    (now : String) (log0 : Ledger) :
    ((events.isEmpty = true ∨ contacts.isEmpty = true
        ∨ (get_events_needing_reminders events today).isEmpty = true) →
      run tmpl coach events contacts today deliver now log0 = ⟨initStats log0, false, none⟩)
    ∧ ((run tmpl coach events contacts today deliver now log0).aborted = true →
        (run tmpl coach events contacts today deliver now log0).saved = none)
    ∧ ((run tmpl coach events contacts today deliver now log0).aborted = false →
        events.isEmpty = false → contacts.isEmpty = false →
        (get_events_needing_reminders events today).isEmpty = false →
        (run tmpl coach events contacts today deliver now log0).saved
            = some ((run tmpl coach events contacts today deliver now log0).stats.log)
        ∧ (run tmpl coach events contacts today deliver now log0).stats.log
            = log0 ++ (run tmpl coach events contacts today deliver now log0).stats.sends.map
                (sendEntry now)
        ∧ (run tmpl coach events contacts today deliver now log0).stats.sent
            = (run tmpl coach events contacts today deliver now log0).stats.sends.length) := by
  refine ⟨?_, ?_, ?_⟩
  · intro h
    rcases h with h | h | h
    · unfold run
      rw [if_pos h]
    · by_cases he : events.isEmpty = true
      · unfold run
        rw [if_pos he]
      · unfold run
        rw [if_neg he, if_pos h]
    · by_cases he : events.isEmpty = true
      · unfold run
        rw [if_pos he]
      · by_cases hco : contacts.isEmpty = true
        · unfold run
          rw [if_neg he, if_pos hco]
        · unfold run
          rw [if_neg he, if_neg hco, if_pos h]
  · intro hab
    by_cases he : events.isEmpty = true
    · have hr : run tmpl coach events contacts today deliver now log0
          = ⟨initStats log0, false, none⟩ := by
        unfold run
        rw [if_pos he]
      rw [hr] at hab
      simp at hab
    · by_cases hco : contacts.isEmpty = true
      · have hr : run tmpl coach events contacts today deliver now log0
            = ⟨initStats log0, false, none⟩ := by
          unfold run
          rw [if_neg he, if_pos hco]
        rw [hr] at hab
        simp at hab
      · by_cases htk : (get_events_needing_reminders events today).isEmpty = true
        · have hr : run tmpl coach events contacts today deliver now log0
              = ⟨initStats log0, false, none⟩ := by
            unfold run
            rw [if_neg he, if_neg hco, if_pos htk]
          rw [hr] at hab
          simp at hab
        · by_cases hP : (processTasks tmpl coach contacts deliver now
              (get_events_needing_reminders events today) (initStats log0)).2 = true
          · have hr : run tmpl coach events contacts today deliver now log0
                = ⟨(processTasks tmpl coach contacts deliver now
                    (get_events_needing_reminders events today) (initStats log0)).1,
                   true, none⟩ := by
              unfold run
              rw [if_neg he, if_neg hco, if_neg htk, if_pos hP]
            rw [hr]
          · have hr : run tmpl coach events contacts today deliver now log0
                = ⟨(processTasks tmpl coach contacts deliver now
                    (get_events_needing_reminders events today) (initStats log0)).1,
                   false,
                   some (processTasks tmpl coach contacts deliver now
                    (get_events_needing_reminders events today) (initStats log0)).1.log⟩ := by
              unfold run
              rw [if_neg he, if_neg hco, if_neg htk, if_neg hP]
            rw [hr] at hab
            simp at hab
  · intro hab hne hnc hnt
    have he : ¬events.isEmpty = true := by simp [hne]
    have hco : ¬contacts.isEmpty = true := by simp [hnc]
    have htk : ¬(get_events_needing_reminders events today).isEmpty = true := by simp [hnt]
    by_cases hP : (processTasks tmpl coach contacts deliver now
        (get_events_needing_reminders events today) (initStats log0)).2 = true
    · exfalso
      have hr : run tmpl coach events contacts today deliver now log0
          = ⟨(processTasks tmpl coach contacts deliver now
              (get_events_needing_reminders events today) (initStats log0)).1,
             true, none⟩ := by
        unfold run
        rw [if_neg he, if_neg hco, if_neg htk, if_pos hP]
      rw [hr] at hab
      simp at hab
    · have hr : run tmpl coach events contacts today deliver now log0
          = ⟨(processTasks tmpl coach contacts deliver now
              (get_events_needing_reminders events today) (initStats log0)).1,
             false,
             some (processTasks tmpl coach contacts deliver now
              (get_events_needing_reminders events today) (initStats log0)).1.log⟩ := by
        unfold run
        rw [if_neg he, if_neg hco, if_neg htk, if_neg hP]
      obtain ⟨g1, g2⟩ := processTasks_invar tmpl coach contacts deliver now
        (get_events_needing_reminders events today) (initStats log0) log0
        (by simp [initStats]) rfl
      rw [hr]
      exact ⟨rfl, g1, g2⟩

/-- Instance check for C10: a completed concrete run persists exactly the
loaded ledger plus one entry per successful send. -/
theorem C10_persist_frame_witness :
    (run (some tmplSample) "Coach" [evGameSample] [annSample] d0Sample (fun _ _ => true)
        "T" []).saved
      = some ((run (some tmplSample) "Coach" [evGameSample] [annSample] d0Sample
          (fun _ _ => true) "T" []).stats.log)
    ∧ (run (some tmplSample) "Coach" [evGameSample] [annSample] d0Sample (fun _ _ => true)
        "T" []).stats.log
      = [] ++ (run (some tmplSample) "Coach" [evGameSample] [annSample] d0Sample
          (fun _ _ => true) "T" []).stats.sends.map (sendEntry "T")
    ∧ (run (some tmplSample) "Coach" [evGameSample] [annSample] d0Sample (fun _ _ => true)
        "T" []).stats.sent
      = (run (some tmplSample) "Coach" [evGameSample] [annSample] d0Sample (fun _ _ => true)
          "T" []).stats.sends.length :=
  (C10_persist_frame (some tmplSample) "Coach" [evGameSample] [annSample] d0Sample
      (fun _ _ => true) "T" []).2.2 (by decide) (by decide) (by decide) (by decide)

/-- C9 counterexample: two completed runs that differ only in how many
deliveries failed (one versus two failed recipients) produce the very
same terminal summary line, and no other summary output exists; the
summary therefore reports neither the failed count nor any enumeration of
failures, contradicting the claim. -/
theorem C9_counterexample :
    (run (some tmplSample) "Coach" [evGameSample] [annSample] d0Sample (fun _ _ => false)
        "T" []).stats.failures.length = 1
    ∧ (run (some tmplSample) "Coach" [evGameSample] [annSample, bobSample] d0Sample
        (fun _ _ => false) "T" []).stats.failures.length = 2
    ∧ summaryLine (run (some tmplSample) "Coach" [evGameSample] [annSample] d0Sample
        (fun _ _ => false) "T" []).stats
      = summaryLine (run (some tmplSample) "Coach" [evGameSample] [annSample, bobSample]
          d0Sample (fun _ _ => false) "T" []).stats := by
  refine ⟨by decide, by decide, by decide⟩

/-- C9 (amended): the terminal summary reports only the sent and skipped
counters — it is a function of those two alone, so the failed count and
the individual failures do not appear in it; each delivery failure is
instead recorded at failure time, together with the affected recipient,
in the per-failure error log (the failures trace), while the counters and
the ledger stay untouched. -/
theorem C9_summary_content :
    (∀ s1 s2 : RunStats, s1.sent = s2.sent → s1.skipped = s2.skipped →
      summaryLine s1 = summaryLine s2)
    ∧ (∀ (tmpl : Option Templates) (coach : String) (deliver : Event → Contact → Bool)
        (now : String) (task : ReminderTask) (c : Contact) (cs : List Contact)
        (st : RunStats),
        has_been_sent st.log task.event c.email = false →
        (create_email_message tmpl coach task c).isNone = false →
        deliver task.event c = false →
        processContacts tmpl coach deliver now task (c :: cs) st
          = processContacts tmpl coach deliver now task cs
              { st with attempts := st.attempts ++ [(task.event, c)],
                        failures := st.failures ++ [(task.event, c)] }) := by
  constructor
  · intro s1 s2 h1 h2
    unfold summaryLine
    rw [h1, h2]
  · intro tmpl coach deliver now task c cs st hsent hmsg hfail
    exact processContacts_fail hsent hmsg hfail

/-- Instance check for the amended C9 at concrete states and a concrete
failing delivery. -/
theorem C9_summary_content_witness :
    summaryLine ⟨3, 2, [], [], [(evGameSample, annSample)], []⟩
      = summaryLine ⟨3, 2, [], [], [], []⟩
    ∧ processContacts (some tmplSample) "Coach" (fun _ _ => false) "T" taskGameSample
        [annSample] (initStats [])
      = processContacts (some tmplSample) "Coach" (fun _ _ => false) "T" taskGameSample []
          { initStats [] with attempts := [(taskGameSample.event, annSample)],
                              failures := [(taskGameSample.event, annSample)] } :=
  ⟨C9_summary_content.1 ⟨3, 2, [], [], [(evGameSample, annSample)], []⟩
      ⟨3, 2, [], [], [], []⟩ rfl rfl,
   C9_summary_content.2 (some tmplSample) "Coach" (fun _ _ => false) "T" taskGameSample
      annSample [] (initStats []) (by decide) (by decide) rfl⟩

/-- A list starts with itself extended by anything. -/
theorem startsWithL_append_self (pat rest : List Char) :
    startsWithL (pat ++ rest) pat = true := by
  induction pat with
  | nil =>
    show startsWithL rest [] = true
    cases rest <;> rfl
  | cons p ps ih => simp [startsWithL, ih]

/-- A successful anchored match pins the head character. -/
theorem startsWithL_head {c : Char} {cs : List Char} {p : Char} {ps : List Char}
    (h : startsWithL (c :: cs) (p :: ps) = true) : c = p := by
  simp only [startsWithL, Bool.and_eq_true, decide_eq_true_eq] at h
  exact h.1

/-- The scan is the identity on the empty input for any fuel. -/
theorem replaceFuel_empty (pat rep : List Char) : ∀ n, replaceFuel pat rep n [] = [] := by
  intro n
  cases n <;> rfl

/-- The fuel is irrelevant once it covers the input length (each step of
the scan consumes at least one character when the pattern is nonempty). -/
theorem replaceFuel_congr {pat rep : List Char} (hp : pat ≠ []) :
    ∀ (n : Nat) (s : List Char) (m : Nat), s.length ≤ n → s.length ≤ m →
      replaceFuel pat rep n s = replaceFuel pat rep m s := by
  intro n
  induction n with
  | zero =>
    intro s m hn _
    have hs : s = [] := List.eq_nil_of_length_eq_zero (Nat.le_zero.mp hn)
    subst hs
    rw [replaceFuel_empty, replaceFuel_empty]
  | succ n ih =>
    intro s m hn hm
    cases s with
    | nil => rw [replaceFuel_empty, replaceFuel_empty]
    | cons c cs =>
      cases m with
      | zero => simp at hm
      | succ m =>
        simp only [replaceFuel]
        by_cases hcond : pat ≠ [] ∧ startsWithL (c :: cs) pat = true
        · rw [if_pos hcond, if_pos hcond]
          have hlen : (List.drop pat.length (c :: cs)).length ≤ cs.length := by
            rw [List.length_drop]
            have h1 : 1 ≤ pat.length := List.length_pos.mpr hp
            simp only [List.length_cons]
            omega
          have hn' : cs.length ≤ n := by
            simp only [List.length_cons] at hn
            omega
          have hm' : cs.length ≤ m := by
            simp only [List.length_cons] at hm
            omega
          rw [ih _ _ (le_trans hlen hn') (le_trans hlen hm')]
        · rw [if_neg hcond, if_neg hcond]
          have hn' : cs.length ≤ n := by
            simp only [List.length_cons] at hn
            omega
          have hm' : cs.length ≤ m := by
            simp only [List.length_cons] at hm
            omega
          rw [ih _ _ hn' hm']

/-- A pattern whose head character never occurs in the input is never
matched: the scan is the identity. -/
theorem replaceFuel_nomatch {p : Char} {ps rep : List Char} :
    ∀ (n : Nat) (s : List Char), (∀ c ∈ s, c ≠ p) → replaceFuel (p :: ps) rep n s = s := by
  intro n
  induction n with
  | zero => intro s _; rfl
  | succ n ih =>
    intro s h
    cases s with
    | nil => rfl
    | cons c cs =>
      simp only [replaceFuel]
      rw [if_neg]
      · rw [ih cs (fun x hx => h x (List.mem_cons_of_mem c hx))]
      · intro hcond
        exact h c (List.mem_cons_self c cs) (startsWithL_head hcond.2)

/-- `str.replace` is the identity when the pattern head never occurs. -/
theorem pyReplaceL_nomatch {p : Char} {ps rep : List Char} {s : List Char}
    (h : ∀ c ∈ s, c ≠ p) : pyReplaceL s (p :: ps) rep = s :=
  replaceFuel_nomatch _ s h

/-- `str.replace` on an input of the shape `A ++ pat ++ B`, where the
pattern head does not occur in `A`: the single occurrence is replaced and
the scan continues after it. -/
theorem pyReplaceL_split {p : Char} {ps rep : List Char} :
    ∀ (A B : List Char), (∀ c ∈ A, c ≠ p) →
      pyReplaceL (A ++ (p :: ps) ++ B) (p :: ps) rep
        = A ++ rep ++ pyReplaceL B (p :: ps) rep := by
  intro A
  induction A with
  | nil =>
    intro B _
    unfold pyReplaceL
    simp only [List.nil_append, List.cons_append, List.length_cons]
    simp only [replaceFuel]
    rw [if_pos]
    · simp only [List.length_cons]
      rw [List.drop_succ_cons, List.drop_left]
      rw [replaceFuel_congr (List.cons_ne_nil p ps) ((ps ++ B).length) B B.length
          (by simp) (le_refl _)]
    · refine ⟨List.cons_ne_nil p ps, ?_⟩
      rw [← List.cons_append]
      exact startsWithL_append_self (p :: ps) B
  | cons a A ih =>
    intro B hA
    have ha : a ≠ p := hA a (List.mem_cons_self a A)
    unfold pyReplaceL at ih ⊢
    simp only [List.cons_append, List.length_cons]
    simp only [replaceFuel]
    rw [if_neg]
    · rw [ih B (fun c hc => hA c (List.mem_cons_of_mem a hc))]
    · intro hcond
      exact ha (startsWithL_head hcond.2)

/-- Every list contains the empty pattern. -/
theorem containsSub_nil_pat (s : List Char) : containsSub s [] = true := by
  cases s <;> rfl

/-- A list of the shape `X ++ m ++ Y` contains `m`. -/
theorem containsSub_append_middle (m : List Char) :
    ∀ (X Y : List Char), containsSub (X ++ m ++ Y) m = true := by
  intro X
  induction X with
  | nil =>
    intro Y
    cases m with
    | nil => exact containsSub_nil_pat Y
    | cons p ps =>
      have h : startsWithL ((p :: ps) ++ Y) (p :: ps) = true :=
        startsWithL_append_self (p :: ps) Y
      rw [List.cons_append] at h
      simp [containsSub, h]
  | cons x X ih =>
    intro Y
    simp only [List.cons_append, containsSub, List.append_eq]
    rw [ih Y]
    simp

/-- A list in which the pattern head never occurs does not contain the
pattern. -/
theorem not_containsSub_of_no_head {p : Char} {ps : List Char} :
    ∀ s : List Char, (∀ c ∈ s, c ≠ p) → containsSub s (p :: ps) = false := by
  intro s
  induction s with
  | nil => intro _; rfl
  | cons c cs ih =>
    intro h
    simp only [containsSub, Bool.or_eq_false_iff]
    constructor
    · cases hsw : startsWithL (c :: cs) (p :: ps) with
      | false => rfl
      | true => exact absurd (startsWithL_head hsw) (h c (List.mem_cons_self c cs))
    · exact ih (fun x hx => h x (List.mem_cons_of_mem c hx))

/-- C7: notes rendering.  For a template whose (substituted) body contains
the notes token exactly once — it splits as `A ++ "[NOTES]" ++ B` with no
bracket in `A` or `B` and no "Additional Info:" text of its own — the
message `create_email_message` builds has a body in which, when the
event's notes are empty, no "[NOTES]" token and no "Additional Info:"
line remains, and, when the notes are nonempty, the text
"Additional Info: " followed by the notes appears. -/
theorem C7_notes_rendering (T : Templates) (coach : String) (task : ReminderTask)
    (contact : Contact) (d : Date) (A B : List Char)
    (hd : parseDate task.event.date = some d)
    (hpre : (preNotes (if task.reminder_type = "practice_reminder" then T.practice_reminder
          else T.game_reminder) coach task.event contact (strftimeLong d)).data
        = A ++ "[NOTES]".data ++ B)
    (hA : ∀ c ∈ A, c ≠ '[') (hB : ∀ c ∈ B, c ≠ '[')
    (hAI : containsSub (A ++ B) "Additional Info:".data = false) :
    create_email_message (some T) coach task contact
      = some (pyReplace (if task.reminder_type = "practice_reminder" then T.practice_reminder
              else T.game_reminder : Template).subject "[TIME]" task.event.time,
            renderBody (if task.reminder_type = "practice_reminder" then T.practice_reminder
              else T.game_reminder) coach task.event contact (strftimeLong d))
    ∧ (task.event.notes = "" →
        containsSub (renderBody (if task.reminder_type = "practice_reminder" then
              T.practice_reminder else T.game_reminder) coach task.event contact
            (strftimeLong d)).data "[NOTES]".data = false
        ∧ containsSub (renderBody (if task.reminder_type = "practice_reminder" then
              T.practice_reminder else T.game_reminder) coach task.event contact
            (strftimeLong d)).data "Additional Info:".data = false)
    ∧ (task.event.notes ≠ "" →
        containsSub (renderBody (if task.reminder_type = "practice_reminder" then
              T.practice_reminder else T.game_reminder) coach task.event contact
            (strftimeLong d)).data ("Additional Info: " ++ task.event.notes).data = true) := by
  refine ⟨?_, ?_, ?_⟩
  · unfold create_email_message
    rw [hd]
  · intro h0
    have hbody : (renderBody (if task.reminder_type = "practice_reminder" then
          T.practice_reminder else T.game_reminder) coach task.event contact
          (strftimeLong d)).data = A ++ B := by
      unfold renderBody
      rw [if_neg (by simp [h0])]
      show pyReplaceL (preNotes (if task.reminder_type = "practice_reminder" then
          T.practice_reminder else T.game_reminder) coach task.event contact
          (strftimeLong d)).data "[NOTES]".data "".data = A ++ B
      rw [hpre]
      have hpat : "[NOTES]".data = '[' :: "NOTES]".data := rfl
      have hnil : "".data = ([] : List Char) := rfl
      rw [hpat, hnil, pyReplaceL_split A B hA, pyReplaceL_nomatch hB]
      simp
    rw [hbody]
    constructor
    · have hpat : "[NOTES]".data = '[' :: "NOTES]".data := rfl
      rw [hpat]
      exact not_containsSub_of_no_head (A ++ B)
        (fun c hc => (List.mem_append.mp hc).elim (hA c) (hB c))
    · exact hAI
  · intro h1
    have hbody : (renderBody (if task.reminder_type = "practice_reminder" then
          T.practice_reminder else T.game_reminder) coach task.event contact
          (strftimeLong d)).data
        = A ++ ('\n' :: ("Additional Info: " ++ task.event.notes).data) ++ B := by
      unfold renderBody
      rw [if_pos h1]
      show pyReplaceL (preNotes (if task.reminder_type = "practice_reminder" then
          T.practice_reminder else T.game_reminder) coach task.event contact
          (strftimeLong d)).data "[NOTES]".data
          ("\nAdditional Info: " ++ task.event.notes).data
        = A ++ ('\n' :: ("Additional Info: " ++ task.event.notes).data) ++ B
      rw [hpre]
      have hpat : "[NOTES]".data = '[' :: "NOTES]".data := rfl
      have hrep : ("\nAdditional Info: " ++ task.event.notes).data
          = '\n' :: ("Additional Info: " ++ task.event.notes).data := rfl
      rw [hpat, hrep, pyReplaceL_split A B hA, pyReplaceL_nomatch hB]
    rw [hbody]
    have hassoc : A ++ ('\n' :: ("Additional Info: " ++ task.event.notes).data) ++ B
        = (A ++ ['\n']) ++ ("Additional Info: " ++ task.event.notes).data ++ B := by
      simp
    rw [hassoc]
    exact containsSub_append_middle _ _ _

/-- Instance check for C7: with the sample game template, an empty-notes
event leaves no notes token or info line in the body, and a notes-bearing
event produces the info line. -/
theorem C7_notes_rendering_witness :
    containsSub (renderBody tmplSample.game_reminder "Coach" evGameSample annSample
        (strftimeLong ⟨2025, 6, 3⟩)).data "[NOTES]".data = false
    ∧ containsSub (renderBody tmplSample.game_reminder "Coach" evGameNotesSample annSample
        (strftimeLong ⟨2025, 6, 3⟩)).data ("Additional Info: " ++ "Bring cleats").data
      = true :=
  ⟨((C7_notes_rendering tmplSample "Coach" taskGameSample annSample ⟨2025, 6, 3⟩
        "Hi Ann, game at Field.".data [] (by decide) (by decide) (by decide) (by decide)
        (by decide)).2.1 rfl).1,
   (C7_notes_rendering tmplSample "Coach" ⟨evGameNotesSample, "game_reminder", d0Sample⟩
        annSample ⟨2025, 6, 3⟩ "Hi Ann, game at Field.".data [] (by decide) (by decide)
        (by decide) (by decide) (by decide)).2.2 (by decide)⟩
